import Mathlib

/-!
Shallow embedding of the DSP pipeline-node core of the webradio repository
(`src/dsp/dspblock.cxx`): the `DspBlock` class with its `connect`, `start`,
`stop`, `run`, `setSampleRate` and `setChannels` operations.

Modelling decisions:
* A block is a tree node: its scalar state plus the ordered list of its
  downstream consumers.  C++ pointer identity is modelled by a numeric `id`
  field (the `find` in `connect` compares pointers; here it compares ids).
* The virtual hooks `init`, `deinit` and `process` are declared in the
  class header (not part of `dspblock.cxx`); their observable behaviour at
  this layer is captured by per-node fields: `initOk` (return value of
  `init`), `initRate`/`initChans` (the output sample rate / channel count a
  concrete `init` may install, `none` meaning the hook leaves the seeded
  values alone), and `procOk` (return value of `process`).  `process`
  writes samples into the already-sized output buffer; sample values are
  irrelevant to the control flow modelled here, so the buffer content after
  `process` is the resized buffer.
* Every operation additionally returns the list of hook/propagation calls
  it performed (`Event`), so that call order, short-circuiting and
  absence of side effects are stateable.
* The profiling instrumentation (`DSPBLOCK_PROFILE`) is compile-time gated
  and not modelled.
-/

/-- Samples (`sample_t`); their numeric values never influence the control
flow modelled here. -/
abbrev Sample := Int

/-- The scalar fields of a `DspBlock`, plus the fields describing the
behaviour of its virtual hooks (see the module doc above). -/
structure BlockState where
  id : Nat
  inputSampleRate : Nat
  inputChannels : Nat
  outputSampleRate : Nat
  outputChannels : Nat
  decimation : Nat
  interpolation : Nat
  isRunning : Bool
  buffer : List Sample
  initOk : Bool
  initRate : Option Nat
  initChans : Option Nat
  procOk : Bool
deriving DecidableEq

/-- Observable calls made by the lifecycle and data-path operations. -/
inductive Event where
  | initCall (id : Nat) (ok : Bool)
  | deinitCall (id : Nat)
  | processCall (id : Nat) (input : List Sample)
  | runCall (id : Nat) (input : List Sample)
deriving DecidableEq

mutual
/-- A `DspBlock`: its own state and its ordered consumer list. -/
inductive DspBlock : Type where
  | mk (st : BlockState) (cons : BlockList) : DspBlock
/-- The `consumers` vector: an ordered list of downstream blocks. -/
inductive BlockList : Type where
  | nil : BlockList
  | cons (b : DspBlock) (bs : BlockList) : BlockList
end

/-- State of a block. -/
def DspBlock.state : DspBlock → BlockState
  | .mk st _ => st

/-- Consumer list of a block. -/
def DspBlock.consumersOf : DspBlock → BlockList
  | .mk _ cs => cs

/-- Identity (models the C++ object address). -/
def DspBlock.id (b : DspBlock) : Nat := b.state.id

/-- Output sample rate installed by the `init` hook: the hook either
overrides `_outputSampleRate` or leaves the value seeded from
`_inputSampleRate` (dspblock.cxx lines 106-110). -/
def hookedOutRate (st : BlockState) : Nat := st.initRate.getD st.inputSampleRate

/-- Output channel count installed by the `init` hook (seeded from
`_inputSampleRate`/`_inputChannels` when not overridden). -/
def hookedOutChans (st : BlockState) : Nat := st.initChans.getD st.inputChannels

/-- Decimation factor computed by `start` (dspblock.cxx lines 118-125). -/
def calcDecim (inR outR : Nat) : Nat := if outR ≤ inR then inR / outR else 1

/-- Interpolation factor computed by `start` (dspblock.cxx lines 118-125). -/
def calcInterp (inR outR : Nat) : Nat := if outR ≤ inR then 1 else outR / inR

/-- The exact-reconstruction check of `start` (dspblock.cxx line 126):
`_inputSampleRate * _interpolation / _decimation == _outputSampleRate`. -/
def rateRelated (inR outR : Nat) : Bool :=
  inR * calcInterp inR outR / calcDecim inR outR == outR

/-- `std::vector::resize`: keep the leading elements, zero-fill the rest. -/
def resizeBuf (l : List Sample) (n : Nat) : List Sample :=
  l.take n ++ List.replicate (n - l.length) 0

/-- `DspBlock::setSampleRate`: mutate `_inputSampleRate` only while not
running (dspblock.cxx lines 215-222). -/
def setRateSt (r : Nat) (st : BlockState) : BlockState :=
  if st.isRunning then st else { st with inputSampleRate := r }

/-- `DspBlock::setChannels`: mutate `_inputChannels` only while not running
(dspblock.cxx lines 224-231). -/
def setChansSt (c : Nat) (st : BlockState) : BlockState :=
  if st.isRunning then st else { st with inputChannels := c }

mutual
/-- `DspBlock::stop` (dspblock.cxx lines 153-167): stop every consumer
first, then — only if running — clear the running flag and call `deinit`,
and finally release the output buffer. -/
def stopB : DspBlock → DspBlock × List Event
  | .mk st cs =>
    let r := stopConsumers cs
    if st.isRunning then
      (.mk { st with isRunning := false, buffer := [] } r.1,
        r.2 ++ [Event.deinitCall st.id])
    else
      (.mk { st with buffer := [] } r.1, r.2)
  termination_by structural b => b
/-- The consumer cascade of `DspBlock::stop`, in list order. -/
def stopConsumers : BlockList → BlockList × List Event
  | .nil => (.nil, [])
  | .cons b bs =>
    let rb := stopB b
    let rs := stopConsumers bs
    (.cons rb.1 rs.1, rb.2 ++ rs.2)
  termination_by structural bs => bs
end

mutual
/-- `DspBlock::start` (dspblock.cxx lines 104-151): seed the output
configuration from the input one, call `init`, derive
decimation/interpolation, verify the exact integer rate relation (calling
`deinit` and failing otherwise), mark running, then configure and start
every consumer; a consumer failure stops this whole node and fails.  The
`cfg` argument carries the `setSampleRate`/`setChannels` push a parent
performs on the block right before starting it (dspblock.cxx lines
141-142); `none` for a `start` called directly. -/
def startAux : Option (Nat × Nat) → DspBlock → Bool × DspBlock × List Event
  | cfg, .mk st0 cs =>
    let st := match cfg with
      | none => st0
      | some rc => setChansSt rc.2 (setRateSt rc.1 st0)
    let st1 := { st with
      outputSampleRate := st.inputSampleRate, outputChannels := st.inputChannels }
    if st.initOk then
      let st2 := { st1 with
        outputSampleRate := hookedOutRate st1, outputChannels := hookedOutChans st1 }
      let st3 := { st2 with
        decimation := calcDecim st2.inputSampleRate st2.outputSampleRate,
        interpolation := calcInterp st2.inputSampleRate st2.outputSampleRate }
      if st3.inputSampleRate * st3.interpolation / st3.decimation ≠ st3.outputSampleRate then
        (false, .mk st3 cs, [Event.initCall st.id true, Event.deinitCall st.id])
      else
        let st4 := { st3 with isRunning := true }
        let r := startConsumers (some (st4.outputSampleRate, st4.outputChannels)) cs
        if r.1 then
          (true, .mk st4 r.2.1, Event.initCall st.id true :: r.2.2)
        else
          let s := stopB (.mk st4 r.2.1)
          (false, s.1, Event.initCall st.id true :: (r.2.2 ++ s.2))
    else
      (false, .mk st1 cs, [Event.initCall st.id false])
  termination_by structural _ b => b
/-- The consumer loop of `DspBlock::start` (dspblock.cxx lines 138-148):
push the output configuration into each consumer, then start it; the first
failure aborts the loop. -/
def startConsumers : Option (Nat × Nat) → BlockList → Bool × BlockList × List Event
  | _, .nil => (true, .nil, [])
  | cfg, .cons b bs =>
    let rb := startAux cfg b
    if rb.1 then
      let rs := startConsumers cfg bs
      (rs.1, .cons rb.2.1 rs.2.1, rb.2.2 ++ rs.2.2)
    else
      (false, .cons rb.2.1 bs, rb.2.2)
  termination_by structural _ bs => bs
end

/-- The buffer-size target of `DspBlock::run` (dspblock.cxx lines
176-177): `inframes = inBuffer.size() / _inputChannels`, then
`outframes * _outputChannels` with
`outframes = inframes * _interpolation / _decimation`. -/
def targetSize (st : BlockState) (input : List Sample) : Nat :=
  input.length / st.inputChannels * st.interpolation / st.decimation * st.outputChannels

/-- The output buffer of `DspBlock::run` after the conditional resize
(dspblock.cxx lines 178-183): untouched when its size already matches,
resized otherwise. -/
def producedBuf (st : BlockState) (input : List Sample) : List Sample :=
  if st.buffer.length = targetSize st input then st.buffer
  else resizeBuf st.buffer (targetSize st input)

mutual
/-- `DspBlock::run` (dspblock.cxx lines 169-212): reject when not running;
compute the frame counts, resize the output buffer only when the required
size differs, call `process`, then run every consumer on the produced
buffer, short-circuiting on the first failure. -/
def runB : DspBlock → List Sample → Bool × DspBlock × List Event
  | .mk st cs, input =>
    if st.isRunning then
      let buf := producedBuf st input
      let st1 := { st with buffer := buf }
      if st.procOk then
        let r := runConsumers buf cs
        (r.1, .mk st1 r.2.1,
          Event.runCall st.id input :: Event.processCall st.id input :: r.2.2)
      else
        (false, .mk st1 cs, [Event.runCall st.id input, Event.processCall st.id input])
    else
      (false, .mk st cs, [Event.runCall st.id input])
  termination_by structural b _ => b
/-- The propagation loop of `DspBlock::run` (dspblock.cxx lines 207-210):
run each consumer in list order on this node's buffer; the first failure
returns immediately. -/
def runConsumers : List Sample → BlockList → Bool × BlockList × List Event
  | _, .nil => (true, .nil, [])
  | buf, .cons b bs =>
    let rb := runB b buf
    if rb.1 then
      let rs := runConsumers buf bs
      (rs.1, .cons rb.2.1 rs.2.1, rb.2.2 ++ rs.2.2)
    else
      (false, .cons rb.2.1 bs, rb.2.2)
  termination_by structural _ bs => bs
end

/-- `DspBlock::start` as called directly (no parent configuration push). -/
def startBlock : DspBlock → Bool × DspBlock × List Event :=
  startAux none

/-- Membership test of the `find` in `DspBlock::connect` (dspblock.cxx
line 64): pointer identity, modelled by ids. -/
def memberId (i : Nat) : BlockList → Bool
  | .nil => false
  | .cons b bs => (b.id == i) || memberId i bs

/-- `consumers.push_back`. -/
def snocB : BlockList → DspBlock → BlockList
  | .nil, t => .cons t .nil
  | .cons b bs, t => .cons b (snocB bs t)

/-- `DspBlock::connect` (dspblock.cxx lines 57-76): when this node is
running, start the target first (ignoring its result); then append the
target to `consumers` unless it is already present (pointer identity), in
which case only a diagnostic is logged.  Returns the updated node together
with the updated target (in C++ the target is mutated through its
pointer). -/
def connectB (self target : DspBlock) : DspBlock × DspBlock :=
  match self with
  | .mk st cs =>
    let t := if st.isRunning then (startBlock target).2.1 else target
    if memberId target.id cs then (.mk st cs, t)
    else (.mk st (snocB cs t), t)

mutual
/-- Every node of the tree has its running flag cleared. -/
def allNotRunning : DspBlock → Bool
  | .mk st cs => (!st.isRunning) && allNotRunningL cs
  termination_by structural b => b
/-- List version of `allNotRunning`. -/
def allNotRunningL : BlockList → Bool
  | .nil => true
  | .cons b bs => allNotRunning b && allNotRunningL bs
  termination_by structural bs => bs
end

/-- Ids of the members of a consumer list, in order. -/
def idsOf : BlockList → List Nat
  | .nil => []
  | .cons b bs => b.id :: idsOf bs

/-- Consumer list as a `List`. -/
def toList : BlockList → List DspBlock
  | .nil => []
  | .cons b bs => b :: toList bs

mutual
/-- Every node of the tree is not running and has a released buffer: the
state `stop` leaves a subtree in. -/
def allStopped : DspBlock → Bool
  | .mk st cs => (!st.isRunning) && st.buffer.isEmpty && allStoppedL cs
  termination_by structural b => b
/-- List version of `allStopped`. -/
def allStoppedL : BlockList → Bool
  | .nil => true
  | .cons b bs => allStopped b && allStoppedL bs
  termination_by structural bs => bs
end

/-- The divisor of the decimation/interpolation computation of `start`
(dspblock.cxx lines 119 and 124): `_outputSampleRate` on the
`_inputSampleRate >= _outputSampleRate` branch, `_inputSampleRate`
otherwise, both read after the `init` hook ran. -/
def startRateDivisor (st : BlockState) : Nat :=
  if hookedOutRate st ≤ st.inputSampleRate then hookedOutRate st
  else st.inputSampleRate

/-- The divisor of the exact-reconstruction check of `start` (dspblock.cxx
line 126): the just-computed `_decimation`. -/
def startCheckDivisor (st : BlockState) : Nat :=
  calcDecim st.inputSampleRate (hookedOutRate st)

/-- The divisor of the frame computation of `run` (dspblock.cxx line 177):
`_inputChannels`. -/
def runFrameDivisor (st : BlockState) : Nat := st.inputChannels

/-- A convenient base state for the concrete example blocks below: a
freshly constructed block (not running, empty buffer) whose hooks succeed
and do not override the output configuration. -/
def baseSt : BlockState :=
  { id := 0, inputSampleRate := 48000, inputChannels := 2,
    outputSampleRate := 48000, outputChannels := 2, decimation := 1,
    interpolation := 1, isRunning := false, buffer := [],
    initOk := true, initRate := none, initChans := none, procOk := true }

/-- Example: input 48000 Hz, `init` sets the output rate to 8000 Hz. -/
def st48to8 : BlockState := { baseSt with id := 1, initRate := some 8000 }

/-- Example: input 8000 Hz, `init` sets the output rate to 48000 Hz. -/
def st8to48 : BlockState :=
  { baseSt with id := 2, inputSampleRate := 8000, initRate := some 48000 }

/-- Example: input 44100 Hz, `init` sets the output rate to 48000 Hz — no
exact integer ratio. -/
def st44to48 : BlockState :=
  { baseSt with id := 3, inputSampleRate := 44100, initRate := some 48000 }

/-- Example: a block whose `init` hook fails. -/
def stInitFail : BlockState := { baseSt with id := 4, initOk := false }

/-- Example: a well-configured block with one consumer whose `init` fails,
so that its `start` fails downstream. -/
def blkDownFail : DspBlock :=
  .mk { baseSt with id := 5 } (.cons (.mk stInitFail .nil) .nil)

/-- Example: an already-running block with unrelated rates, as left by an
earlier lifecycle; used to exercise a repeated `start`. -/
def stRun44 : BlockState := { st44to48 with id := 6, isRunning := true }

/-- Example: a running block, ready for `run`: 2 input channels, 6:1
decimation (48000 Hz to 8000 Hz). -/
def stRunning : BlockState :=
  { baseSt with
      id := 7, isRunning := true, outputSampleRate := 8000,
      decimation := 6 }

/-- Example: a stopped block carrying one consumer, for the `run` and
`connect` witnesses. -/
def blkIdle : DspBlock :=
  .mk { baseSt with id := 8 } (.cons (.mk { baseSt with id := 9 } .nil) .nil)

/-- Example: a running 1:1 consumer whose `process` fails. -/
def stProcFail : BlockState :=
  { baseSt with
      id := 10, isRunning := true, inputSampleRate := 8000,
      outputSampleRate := 8000, procOk := false }

/-- Example: a healthy running 1:1 consumer. -/
def stHealthy : BlockState :=
  { baseSt with
      id := 11, isRunning := true, inputSampleRate := 8000,
      outputSampleRate := 8000 }

/-- Example: a running block with two consumers: first one whose `process`
fails, then a healthy one — exercises the short-circuit of `run`. -/
def blkRunFail : DspBlock :=
  .mk stRunning
    (.cons (.mk stProcFail .nil) (.cons (.mk stHealthy .nil) .nil))

/-- Example: a running block already wired to consumer id 9, used to
connect a duplicate. -/
def blkRunWired : DspBlock :=
  .mk { baseSt with id := 12, isRunning := true }
    (.cons (.mk { baseSt with id := 9 } .nil) .nil)

/-! ### Helper lemmas -/

/-- Stopping only clears the running flag and releases the buffer in the
node's own state. -/
theorem stopB_state (b : DspBlock) :
    ((stopB b).1).state = { b.state with isRunning := false, buffer := [] } := by
  obtain ⟨st, cs⟩ := b
  obtain ⟨i, isr, ic, osr, oc, d, ip, run, buf, io, ir, ich, p⟩ := st
  cases run <;> simp [stopB, DspBlock.state]

/-- The consumer cascade of `stop` maps `stop` over the list, in order. -/
theorem stopConsumers_toList (bs : BlockList) :
    toList (stopConsumers bs).1 = (toList bs).map (fun c => (stopB c).1) := by
  cases bs with
  | nil => simp [stopConsumers, toList]
  | cons b bs' =>
    have ih := stopConsumers_toList bs'
    simp [stopConsumers, toList, ih]
  termination_by structural bs

/-- The trace of the consumer cascade of `stop` is the concatenation of the
consumers' stop traces, in order. -/
theorem stopConsumers_trace (bs : BlockList) :
    (stopConsumers bs).2 = ((toList bs).map (fun c => (stopB c).2)).flatten := by
  cases bs with
  | nil => simp [stopConsumers, toList]
  | cons b bs' =>
    have ih := stopConsumers_trace bs'
    simp [stopConsumers, toList, ih]
  termination_by structural bs

mutual
/-- After `stop`, every node of the subtree is stopped with an empty
buffer. -/
theorem stopB_allStopped (b : DspBlock) : allStopped (stopB b).1 = true := by
  cases b with
  | mk st cs =>
    have ih := stopConsumers_allStopped cs
    cases hr : st.isRunning <;>
      simp [stopB, hr, allStopped, ih, List.isEmpty]
  termination_by structural b
/-- List version of `stopB_allStopped`. -/
theorem stopConsumers_allStopped (bs : BlockList) :
    allStoppedL (stopConsumers bs).1 = true := by
  cases bs with
  | nil => simp [stopConsumers, allStoppedL]
  | cons b bs' =>
    have ih1 := stopB_allStopped b
    have ih2 := stopConsumers_allStopped bs'
    simp [stopConsumers, allStoppedL, ih1, ih2]
  termination_by structural bs
end

mutual
/-- A subtree that is entirely stopped is a fixpoint of `stop`, and the
second `stop` performs no hook call at all. -/
theorem stopB_of_allStopped (b : DspBlock) (h : allStopped b = true) :
    stopB b = (b, []) := by
  cases b with
  | mk st cs =>
    simp [allStopped] at h
    have ih := stopConsumers_of_allStopped cs h.2
    obtain ⟨i, isr, ic, osr, oc, d, ip, run, buf, io, ir, ich, p⟩ := st
    simp_all [stopB, List.isEmpty_iff]
  termination_by structural b
/-- List version of `stopB_of_allStopped`. -/
theorem stopConsumers_of_allStopped (bs : BlockList) (h : allStoppedL bs = true) :
    stopConsumers bs = (bs, []) := by
  cases bs with
  | nil => simp [stopConsumers]
  | cons b bs' =>
    simp [allStoppedL] at h
    have ih1 := stopB_of_allStopped b h.1
    have ih2 := stopConsumers_of_allStopped bs' h.2
    simp [stopConsumers, ih1, ih2]
  termination_by structural bs
end

mutual
/-- A fully stopped subtree is in particular nowhere running. -/
theorem allNotRunning_of_allStopped (b : DspBlock) (h : allStopped b = true) :
    allNotRunning b = true := by
  cases b with
  | mk st cs =>
    simp [allStopped] at h
    have ih := allNotRunningL_of_allStopped cs h.2
    simp [allNotRunning, h.1.1, ih]
  termination_by structural b
/-- List version of `allNotRunning_of_allStopped`. -/
theorem allNotRunningL_of_allStopped (bs : BlockList) (h : allStoppedL bs = true) :
    allNotRunningL bs = true := by
  cases bs with
  | nil => simp [allNotRunningL]
  | cons b bs' =>
    simp [allStoppedL] at h
    have ih1 := allNotRunning_of_allStopped b h.1
    have ih2 := allNotRunningL_of_allStopped bs' h.2
    simp [allNotRunningL, ih1, ih2]
  termination_by structural bs
end

/-- `push_back` appends the id. -/
theorem idsOf_snocB (bs : BlockList) (t : DspBlock) :
    idsOf (snocB bs t) = idsOf bs ++ [t.id] := by
  cases bs with
  | nil => simp [snocB, idsOf]
  | cons b bs' =>
    have ih := idsOf_snocB bs' t
    simp [snocB, idsOf, ih]
  termination_by structural bs

/-- `push_back` appends the element. -/
theorem toList_snocB (bs : BlockList) (t : DspBlock) :
    toList (snocB bs t) = toList bs ++ [t] := by
  cases bs with
  | nil => simp [snocB, toList]
  | cons b bs' =>
    have ih := toList_snocB bs' t
    simp [snocB, toList, ih]
  termination_by structural bs

/-- The `find` of `connect` succeeds exactly when the id occurs in the
consumer list. -/
theorem memberId_iff (i : Nat) (bs : BlockList) :
    memberId i bs = true ↔ i ∈ idsOf bs := by
  cases bs with
  | nil => simp [memberId, idsOf]
  | cons b bs' =>
    have ih := memberId_iff i bs'
    simp only [memberId, idsOf, Bool.or_eq_true, beq_iff_eq, ih, List.mem_cons]
    constructor
    · rintro (h | h)
      · exact Or.inl h.symm
      · exact Or.inr h
    · rintro (h | h)
      · exact Or.inl h.symm
      · exact Or.inr h
  termination_by structural bs

/-- When every consumer's `run` succeeds on the produced buffer, the
propagation loop of `run` succeeds, updates every consumer in list order
and concatenates their traces in order. -/
theorem runConsumers_all_ok (buf : List Sample) (bs : BlockList)
    (h : ∀ c ∈ toList bs, (runB c buf).1 = true) :
    (runConsumers buf bs).1 = true
    ∧ toList (runConsumers buf bs).2.1 = (toList bs).map (fun c => (runB c buf).2.1)
    ∧ (runConsumers buf bs).2.2 = ((toList bs).map (fun c => (runB c buf).2.2)).flatten := by
  cases bs with
  | nil => simp [runConsumers, toList]
  | cons b bs' =>
    have hb := h b (by simp [toList])
    have ih := runConsumers_all_ok buf bs' (fun c hc => h c (by simp [toList]; right; exact hc))
    simp [runConsumers, toList, hb, ih.1, ih.2.1, ih.2.2]
  termination_by structural bs

/-- When the consumer at position `l1.length` is the first whose `run`
fails on the produced buffer, the propagation loop fails, has updated
exactly the consumers up to and including the failing one (in list order),
leaves the rest untouched, and its trace covers exactly the invoked
consumers. -/
theorem runConsumers_first_fail (buf : List Sample) (bs : BlockList)
    (l1 : List DspBlock) (c : DspBlock) (l2 : List DspBlock)
    (hsplit : toList bs = l1 ++ c :: l2)
    (hok : ∀ x ∈ l1, (runB x buf).1 = true)
    (hfail : (runB c buf).1 = false) :
    (runConsumers buf bs).1 = false
    ∧ toList (runConsumers buf bs).2.1
        = l1.map (fun x => (runB x buf).2.1) ++ (runB c buf).2.1 :: l2
    ∧ (runConsumers buf bs).2.2
        = (l1.map (fun x => (runB x buf).2.2)).flatten ++ (runB c buf).2.2 := by
  cases bs with
  | nil => simp [toList] at hsplit
  | cons b bs' =>
    cases l1 with
    | nil =>
      simp [toList] at hsplit
      obtain ⟨rfl, rfl⟩ := hsplit
      simp [runConsumers, hfail, toList]
    | cons x l1' =>
      simp [toList] at hsplit
      obtain ⟨rfl, hsplit'⟩ := hsplit
      have hx := hok b (by simp)
      have ih := runConsumers_first_fail buf bs' l1' c l2 hsplit'
        (fun y hy => hok y (by simp [hy])) hfail
      simp [runConsumers, hx, toList, ih.1, ih.2.1, ih.2.2]
  termination_by structural bs

/-- `resize` yields exactly the requested length. -/
theorem resizeBuf_length (l : List Sample) (n : Nat) :
    (resizeBuf l n).length = n := by
  simp [resizeBuf]
  omega

/-- The produced buffer has exactly the target size. -/
theorem producedBuf_length (st : BlockState) (input : List Sample) :
    (producedBuf st input).length = targetSize st input := by
  unfold producedBuf
  split
  · assumption
  · exact resizeBuf_length _ _

/-- On a running node, `run` changes the node's own state only by
installing the produced buffer. -/
theorem runB_root_state (st : BlockState) (cs : BlockList) (input : List Sample)
    (h : st.isRunning = true) :
    ((runB (.mk st cs) input).2.1).state = { st with buffer := producedBuf st input } := by
  cases hp : st.procOk <;> simp [runB, h, hp, DspBlock.state]

/-! ### Claim theorems -/

/-- C8: for every node that is not running, `run(inputBuffer)` returns
failure without any side effects: the node (in particular its output
buffer) is unchanged, the `process` hook is not invoked, and no consumer's
`run` is called — the trace holds nothing but the rejected entry call. -/
theorem c8_run_not_running (st : BlockState) (cs : BlockList) (input : List Sample)
    (h : st.isRunning = false) :
    runB (.mk st cs) input = (false, .mk st cs, [Event.runCall st.id input]) := by
  simp [runB, h]

/-- Witness for C8: a never-started block rejects `run` and is returned
unchanged. -/
theorem c8_witness :
    runB blkIdle [0, 1, 2] = (false, blkIdle, [Event.runCall 8 [0, 1, 2]]) := by
  have h := c8_run_not_running { baseSt with id := 8 }
    (.cons (.mk { baseSt with id := 9 } .nil) .nil) [0, 1, 2] (by decide)
  simpa [blkIdle] using h

/-- C7: on a running node, `run` computes `inframes = |input| /
inputChannels` and `outframes = inframes * interpolation / decimation` and
leaves the output buffer at exactly `outframes * outputChannels` samples
(a multiple of `outputChannels`); the buffer is untouched when it already
has that size, so a repeated `run` with an input of the same frame count
leaves the buffer identical. -/
theorem c7_run_buffer_size (st : BlockState) (cs : BlockList) (input : List Sample)
    (h : st.isRunning = true) :
    ((runB (.mk st cs) input).2.1).state = { st with buffer := producedBuf st input }
    ∧ (producedBuf st input).length
        = input.length / st.inputChannels * st.interpolation / st.decimation
          * st.outputChannels
    ∧ (st.buffer.length = targetSize st input → producedBuf st input = st.buffer)
    ∧ (∀ input2 : List Sample, input2.length = input.length →
        ((runB ((runB (.mk st cs) input).2.1) input2).2.1).state.buffer
          = ((runB (.mk st cs) input).2.1).state.buffer)
    ∧ ((runB (.mk st cs) input).2.1).state.buffer.length % st.outputChannels = 0 := by
  have hroot := runB_root_state st cs input h
  have hlen := producedBuf_length st input
  refine ⟨hroot, by simpa [targetSize] using hlen, ?_, ?_, ?_⟩
  · intro hsz
    simp [producedBuf, hsz]
  · intro input2 hlen2
    cases hb : (runB (.mk st cs) input).2.1 with
    | mk st' cs' =>
      have hst' : st' = { st with buffer := producedBuf st input } := by
        have := hroot
        rw [hb] at this
        simpa [DspBlock.state] using this
      have hrun' : st'.isRunning = true := by simp [hst', h]
      have hroot2 := runB_root_state st' cs' input2 hrun'
      have htgt : targetSize st' input2 = targetSize st input := by
        simp [targetSize, hst', hlen2]
      have hbl : st'.buffer.length = targetSize st' input2 := by
        rw [htgt, hst']
        exact hlen
      have hpb : producedBuf st' input2 = st'.buffer := by
        unfold producedBuf
        rw [if_pos hbl]
      have hbuf2 : ((runB (.mk st' cs') input2).2.1).state.buffer
          = producedBuf st' input2 := by rw [hroot2]
      rw [hbuf2, hpb]
      rfl
  · rw [hroot]
    simp [hlen, targetSize, Nat.mul_mod_left]

/-- C6: `stop` cascades to every consumer in list order regardless of the
node's own running flag; the node's own state afterwards is not running
with a released (empty) buffer, `deinit` appears in the trace exactly when
the node was running, and — since `stop` is a total function that returns
no status — it cannot fail.  A second `stop` leaves the subtree unchanged
and performs no `deinit` at all (its trace is empty). -/
theorem c6_stop_idempotent (b : DspBlock) :
    ((stopB b).1).state = { b.state with isRunning := false, buffer := [] }
    ∧ toList ((stopB b).1).consumersOf = (toList b.consumersOf).map (fun c => (stopB c).1)
    ∧ (stopB b).2 = ((toList b.consumersOf).map (fun c => (stopB c).2)).flatten
        ++ (if b.state.isRunning then [Event.deinitCall b.state.id] else [])
    ∧ stopB (stopB b).1 = ((stopB b).1, []) := by
  refine ⟨stopB_state b, ?_, ?_, stopB_of_allStopped _ (stopB_allStopped b)⟩
  · cases b with
    | mk st cs =>
      cases hr : st.isRunning <;>
        simp [stopB, hr, DspBlock.consumersOf, stopConsumers_toList]
  · cases b with
    | mk st cs =>
      cases hr : st.isRunning <;>
        simp [stopB, hr, DspBlock.state, DspBlock.consumersOf, stopConsumers_trace]

/-- A directly invoked `start` never touches the node's own identity or
input configuration, on any of its paths. -/
theorem startAux_none_inputs (st : BlockState) (cs : BlockList) :
    ((startAux none (.mk st cs)).2.1).state.id = st.id
    ∧ ((startAux none (.mk st cs)).2.1).state.inputSampleRate = st.inputSampleRate
    ∧ ((startAux none (.mk st cs)).2.1).state.inputChannels = st.inputChannels := by
  cases hi : st.initOk with
  | false => simp [startAux, hi, DspBlock.state]
  | true =>
    simp only [startAux, hi, if_true]
    split
    · simp [DspBlock.state]
    · split
      · simp [DspBlock.state]
      · rw [stopB_state]
        simp [DspBlock.state]

/-- When `init` succeeds, `start` installs the computed
decimation/interpolation factors, on any of its remaining paths. -/
theorem startAux_none_factors (st : BlockState) (cs : BlockList) (h : st.initOk = true) :
    ((startAux none (.mk st cs)).2.1).state.decimation
        = calcDecim st.inputSampleRate (hookedOutRate st)
    ∧ ((startAux none (.mk st cs)).2.1).state.interpolation
        = calcInterp st.inputSampleRate (hookedOutRate st) := by
  simp only [startAux, h, if_true]
  split
  · simp [DspBlock.state, hookedOutRate]
  · split
    · simp [DspBlock.state, hookedOutRate]
    · rw [stopB_state]
      simp [DspBlock.state, hookedOutRate]

/-- C4: `connect(target)` with `target` already present (by identity) in
the consumers list leaves this node — in particular its consumers list —
completely unchanged; and `connect` preserves freedom from duplicate
identities, so the consumers list never accumulates a duplicate
reference. -/
theorem c4_connect_duplicate (self target : DspBlock) :
    (memberId target.id self.consumersOf = true → (connectB self target).1 = self)
    ∧ ((idsOf self.consumersOf).Nodup → (idsOf ((connectB self target).1).consumersOf).Nodup) := by
  cases self with
  | mk st cs =>
    constructor
    · intro h
      simp [connectB, DspBlock.consumersOf] at h ⊢
      simp [h]
    · intro hnd
      simp only [DspBlock.consumersOf] at hnd ⊢
      cases hm : memberId target.id cs with
      | true => simp [connectB, hm, DspBlock.consumersOf]; exact hnd
      | false =>
        have hnotin : target.id ∉ idsOf cs := by
          intro hin
          rw [← memberId_iff] at hin
          simp [hm] at hin
        have hid : (if st.isRunning then (startBlock target).2.1 else target).id
            = target.id := by
          cases hr : st.isRunning with
          | false => simp
          | true =>
            simp only [if_true]
            cases target with
            | mk tst tcs =>
              have := (startAux_none_inputs tst tcs).1
              simpa [startBlock, DspBlock.id] using this
        simp only [connectB, hm, Bool.false_eq_true, if_false, DspBlock.consumersOf]
        rw [idsOf_snocB, hid]
        simp [List.nodup_append, hnd, hnotin]

/-- Witness for C4: connecting an already-wired consumer (same identity)
to a running node changes nothing on the node, and the wired list stays
duplicate-free. -/
theorem c4_witness :
    (connectB blkRunWired (.mk { baseSt with id := 9 } .nil)).1 = blkRunWired
    ∧ (idsOf ((connectB blkRunWired (.mk { baseSt with id := 9 } .nil)).1).consumersOf).Nodup := by
  have h := c4_connect_duplicate blkRunWired (.mk { baseSt with id := 9 } .nil)
  refine ⟨h.1 (by decide), h.2 ?_⟩
  simp [blkRunWired, DspBlock.consumersOf, idsOf]

/-- C9: on a running node, `connect(target)` starts `target` exactly as a
direct `start` would — without first pushing this node's output
configuration down: the target keeps its own `inputSampleRate` and
`inputChannels` — and this happens regardless of the later
duplicate-membership check; when the target is new it is appended, as
started, to the consumers list. -/
theorem c9_connect_starts_unconfigured (st : BlockState) (cs : BlockList)
    (target : DspBlock) (h : st.isRunning = true) :
    (connectB (.mk st cs) target).2 = (startBlock target).2.1
    ∧ ((connectB (.mk st cs) target).2).state.inputSampleRate
        = target.state.inputSampleRate
    ∧ ((connectB (.mk st cs) target).2).state.inputChannels
        = target.state.inputChannels
    ∧ (memberId target.id cs = false →
        toList ((connectB (.mk st cs) target).1).consumersOf
          = toList cs ++ [(startBlock target).2.1]) := by
  cases target with
  | mk tst tcs =>
    have hin := startAux_none_inputs tst tcs
    have h2 : (connectB (.mk st cs) (.mk tst tcs)).2
        = (startBlock (.mk tst tcs)).2.1 := by
      simp only [connectB, h, if_true]
      split <;> rfl
    refine ⟨h2, ?_, ?_, ?_⟩
    · rw [h2]
      simpa [startBlock, DspBlock.state] using hin.2.1
    · rw [h2]
      simpa [startBlock, DspBlock.state] using hin.2.2
    · intro hm
      simp only [connectB, h, if_true, DspBlock.consumersOf, hm,
        Bool.false_eq_true, if_false]
      rw [toList_snocB]

/-- Witness for C9: connecting a fresh block (input 8000 Hz, 1 channel) to
a running 48000 Hz node starts it with its own configuration — input
fields unchanged — and appends the started block. -/
theorem c9_witness :
    (connectB blkRunWired (.mk { baseSt with
        id := 13, inputSampleRate := 8000, inputChannels := 1 } .nil)).2
      = (startBlock (.mk { baseSt with
        id := 13, inputSampleRate := 8000, inputChannels := 1 } .nil)).2.1
    ∧ ((connectB blkRunWired (.mk { baseSt with
        id := 13, inputSampleRate := 8000, inputChannels := 1 } .nil)).2).state.inputSampleRate
      = 8000
    ∧ ((connectB blkRunWired (.mk { baseSt with
        id := 13, inputSampleRate := 8000, inputChannels := 1 } .nil)).2).state.inputChannels
      = 1 := by
  have h := c9_connect_starts_unconfigured
    { baseSt with id := 12, isRunning := true }
    (.cons (.mk { baseSt with id := 9 } .nil) .nil)
    (.mk { baseSt with id := 13, inputSampleRate := 8000, inputChannels := 1 } .nil)
    (by decide)
  exact ⟨h.1, h.2.1, h.2.2.1⟩

/-- C10: the unguarded divisors of `start` (the rate used on the chosen
decimation/interpolation branch and the computed decimation in the
verification) and of `run` (the input channel count) are all positive
exactly when `inputSampleRate`, the post-`init` `outputSampleRate` and
`inputChannels` are all positive — the positivity precondition is both
sufficient and necessary, and nothing in the code checks it. -/
theorem c10_division_preconditions (st : BlockState) :
    (0 < st.inputSampleRate ∧ 0 < hookedOutRate st ∧ 0 < st.inputChannels)
    ↔ (0 < startRateDivisor st ∧ 0 < startCheckDivisor st ∧ 0 < runFrameDivisor st) := by
  unfold startRateDivisor startCheckDivisor runFrameDivisor calcDecim
  constructor
  · rintro ⟨h1, h2, h3⟩
    refine ⟨?_, ?_, h3⟩
    · split <;> [exact h2; exact h1]
    · split
      · exact Nat.div_pos (by assumption) h2
      · omega
  · rintro ⟨h1, h2, h3⟩
    refine ⟨?_, ?_, h3⟩
    · rcases le_or_lt (hookedOutRate st) st.inputSampleRate with hle | hlt
      · rw [if_pos hle] at h1
        omega
      · rw [if_neg (by omega)] at h1
        exact h1
    · rcases le_or_lt (hookedOutRate st) st.inputSampleRate with hle | hlt
      · rw [if_pos hle] at h1
        exact h1
      · omega

/-- C2: when the `init` hook succeeds, `start` computes the decimation and
interpolation factors by integer division: decimation =
inputSampleRate / outputSampleRate and interpolation 1 when the input rate
is at least the (post-`init`) output rate, and interpolation =
outputSampleRate / inputSampleRate with decimation 1 otherwise. -/
theorem c2_rate_factors (st : BlockState) (cs : BlockList) (h : st.initOk = true) :
    (hookedOutRate st ≤ st.inputSampleRate →
      ((startAux none (.mk st cs)).2.1).state.decimation
          = st.inputSampleRate / hookedOutRate st
      ∧ ((startAux none (.mk st cs)).2.1).state.interpolation = 1)
    ∧ (st.inputSampleRate < hookedOutRate st →
      ((startAux none (.mk st cs)).2.1).state.decimation = 1
      ∧ ((startAux none (.mk st cs)).2.1).state.interpolation
          = hookedOutRate st / st.inputSampleRate) := by
  have hf := startAux_none_factors st cs h
  constructor
  · intro hle
    rw [hf.1, hf.2]
    simp [calcDecim, calcInterp, hle]
  · intro hlt
    rw [hf.1, hf.2]
    simp [calcDecim, calcInterp, Nat.not_le.mpr hlt]

/-- Witness for C2: input 48000 with output 8000 yields decimation 6 and
interpolation 1; input 8000 with output 48000 yields decimation 1 and
interpolation 6. -/
theorem c2_witness :
    ((startAux none (.mk st48to8 .nil)).2.1).state.decimation = 6
    ∧ ((startAux none (.mk st48to8 .nil)).2.1).state.interpolation = 1
    ∧ ((startAux none (.mk st8to48 .nil)).2.1).state.decimation = 1
    ∧ ((startAux none (.mk st8to48 .nil)).2.1).state.interpolation = 6 := by
  have h1 := (c2_rate_factors st48to8 .nil (by decide)).1 (by decide)
  have h2 := (c2_rate_factors st8to48 .nil (by decide)).2 (by decide)
  exact ⟨h1.1.trans (by decide), h1.2, h2.1, h2.2.trans (by decide)⟩

/-- Counterexample to C3 as stated: an already-running node (its `init`
succeeding, rates 44100 to 48000 with no exact integer ratio, no
consumers) makes `start` fail at the rate check — yet the node does NOT
end "not running": the failing `start` leaves the previously set running
flag in place, contradicting the claim's "the node ends not running". -/
theorem c3_counterexample :
    stRun44.initOk = true
    ∧ (startAux none (.mk stRun44 .nil)).1 = false
    ∧ ((startAux none (.mk stRun44 .nil)).2.1).state.isRunning = true := by
  decide

/-- C3 (amended): for every node with no consumers that is not currently
running and whose `init` hook succeeds, `start` returns failure exactly
when `inputSampleRate * interpolation / decimation` differs from the
(post-`init`) output sample rate; in that case `deinit` is invoked before
returning and the node ends not running. -/
theorem c3_rate_relation_failure (st : BlockState) (h1 : st.initOk = true)
    (h2 : st.isRunning = false) :
    ((startAux none (.mk st .nil)).1 = false
      ↔ st.inputSampleRate * calcInterp st.inputSampleRate (hookedOutRate st)
          / calcDecim st.inputSampleRate (hookedOutRate st) ≠ hookedOutRate st)
    ∧ ((startAux none (.mk st .nil)).1 = false →
        Event.deinitCall st.id ∈ (startAux none (.mk st .nil)).2.2
        ∧ ((startAux none (.mk st .nil)).2.1).state.isRunning = false) := by
  simp only [startAux, h1, if_true, startConsumers, hookedOutRate]
  by_cases hrel : st.inputSampleRate
      * calcInterp st.inputSampleRate (st.initRate.getD st.inputSampleRate)
      / calcDecim st.inputSampleRate (st.initRate.getD st.inputSampleRate)
      = st.initRate.getD st.inputSampleRate
  · simp [hrel]
  · simp [hrel, DspBlock.state, h2]

/-- Witness for C3 (amended): input 44100 with `init` installing output
48000 on a fresh node — `start` fails, `deinit` is called, the node is not
running. -/
theorem c3_witness :
    (startAux none (.mk st44to48 .nil)).1 = false
    ∧ Event.deinitCall st44to48.id ∈ (startAux none (.mk st44to48 .nil)).2.2
    ∧ ((startAux none (.mk st44to48 .nil)).2.1).state.isRunning = false := by
  have h := c3_rate_relation_failure st44to48 (by decide) (by decide)
  have hf : (startAux none (.mk st44to48 .nil)).1 = false := h.1.mpr (by decide)
  exact ⟨hf, (h.2 hf).1, (h.2 hf).2⟩

/-- C1: when `init` succeeded and the rate relation held (so a failure of
`start` can only come from a consumer's failed `start`), the failing
`start` stops this entire node before returning: the node and every node
of its transitive consumer subtree end not running. -/
theorem c1_downstream_failure_teardown (st : BlockState) (cs : BlockList)
    (h1 : st.initOk = true)
    (h2 : rateRelated st.inputSampleRate (hookedOutRate st) = true)
    (h3 : (startAux none (.mk st cs)).1 = false) :
    allNotRunning ((startAux none (.mk st cs)).2.1) = true := by
  have hrel : st.inputSampleRate * calcInterp st.inputSampleRate (hookedOutRate st)
      / calcDecim st.inputSampleRate (hookedOutRate st) = hookedOutRate st := by
    simpa [rateRelated] using h2
  simp only [startAux, h1, if_true, hookedOutRate] at h3 ⊢
  simp only [hookedOutRate] at hrel
  simp only [hrel, ne_eq, not_true_eq_false, if_false, ite_not] at h3 ⊢
  split at h3
  · next hcons =>
    simp only [hcons, if_true] at h3 ⊢
    exact absurd h3 (by simp)
  · next hcons =>
    simp only [hcons, if_false] at h3 ⊢
    exact allNotRunning_of_allStopped _ (stopB_allStopped _)

/-- Witness for C1: a healthy root whose single consumer's `init` fails —
`start` fails and the whole two-node subtree ends not running. -/
theorem c1_witness :
    allNotRunning ((startAux none blkDownFail).2.1) = true := by
  have h := c1_downstream_failure_teardown { baseSt with id := 5 }
    (.cons (.mk stInitFail .nil) .nil) (by decide) (by decide) (by decide)
  exact h

/-- C5: on a running node whose `process` step succeeds, `run` invokes
`run` on each consumer in list order, passing the freshly produced output
buffer to each; when all succeed the node succeeds with every consumer
updated and all their traces concatenated in order; the first consumer
whose `run` fails makes the node fail immediately: the consumers after it
are left untouched and never appear in the trace, while the consumers
already invoked keep their updates (no rollback). -/
theorem c5_run_propagation (st : BlockState) (cs : BlockList) (input : List Sample)
    (h1 : st.isRunning = true) (h2 : st.procOk = true) :
    ((∀ c ∈ toList cs, (runB c (producedBuf st input)).1 = true) →
      (runB (.mk st cs) input).1 = true
      ∧ toList ((runB (.mk st cs) input).2.1).consumersOf
          = (toList cs).map (fun c => (runB c (producedBuf st input)).2.1)
      ∧ (runB (.mk st cs) input).2.2
          = Event.runCall st.id input :: Event.processCall st.id input
            :: ((toList cs).map (fun c => (runB c (producedBuf st input)).2.2)).flatten)
    ∧ (∀ (l1 : List DspBlock) (c : DspBlock) (l2 : List DspBlock),
        toList cs = l1 ++ c :: l2 →
        (∀ x ∈ l1, (runB x (producedBuf st input)).1 = true) →
        (runB c (producedBuf st input)).1 = false →
        (runB (.mk st cs) input).1 = false
        ∧ toList ((runB (.mk st cs) input).2.1).consumersOf
            = l1.map (fun x => (runB x (producedBuf st input)).2.1)
              ++ (runB c (producedBuf st input)).2.1 :: l2
        ∧ (runB (.mk st cs) input).2.2
            = Event.runCall st.id input :: Event.processCall st.id input
              :: ((l1.map (fun x => (runB x (producedBuf st input)).2.2)).flatten
                ++ (runB c (producedBuf st input)).2.2)) := by
  constructor
  · intro hall
    have hc := runConsumers_all_ok (producedBuf st input) cs hall
    simp only [runB, h1, if_true, h2, DspBlock.consumersOf]
    exact ⟨hc.1, hc.2.1, by rw [hc.2.2]⟩
  · intro l1 c l2 hsplit hok hfail
    have hc := runConsumers_first_fail (producedBuf st input) cs l1 c l2 hsplit hok hfail
    simp only [runB, h1, if_true, h2, DspBlock.consumersOf]
    exact ⟨hc.1, hc.2.1, by rw [hc.2.2]⟩

/-- Witness for C5: a running node with two consumers — the first fails in
its `process`, so the node's `run` fails, the first consumer keeps its
update and the second consumer is left completely untouched. -/
theorem c5_witness :
    (runB blkRunFail (List.replicate 12 0)).1 = false
    ∧ toList ((runB blkRunFail (List.replicate 12 0)).2.1).consumersOf
        = [(runB (.mk stProcFail .nil) (producedBuf stRunning (List.replicate 12 0))).2.1,
           .mk stHealthy .nil] := by
  have h := (c5_run_propagation stRunning
      (.cons (.mk stProcFail .nil) (.cons (.mk stHealthy .nil) .nil))
      (List.replicate 12 0) (by decide) (by decide)).2
      [] (.mk stProcFail .nil) [.mk stHealthy .nil]
      (by simp [toList]) (by simp) (by decide)
  exact ⟨h.1, by simpa using h.2.1⟩

/-- Witness for C7: a running 6:1 stereo node fed 12 samples (6 frames)
ends with a 2-sample buffer — one output frame of two channels, an exact
multiple of the channel count. -/
theorem c7_witness :
    ((runB (.mk stRunning .nil) (List.replicate 12 0)).2.1).state.buffer.length = 2
    ∧ ((runB (.mk stRunning .nil) (List.replicate 12 0)).2.1).state.buffer.length
        % stRunning.outputChannels = 0 := by
  have h := c7_run_buffer_size stRunning .nil (List.replicate 12 0) (by decide)
  constructor
  · rw [h.1]
    exact h.2.1.trans (by decide)
  · exact h.2.2.2.2
